import Mathlib

/-!
Verification of the host-authoritative state synchronization protocol of
src/src/hooks/useGameConnection.ts.

The hook keeps four pieces of local state that matter to the protocol:
myPeerId, role, gameState and the connection registry (connectionsRef).
We embed the two message handlers, handleIncomingMessage and the
connection close handler, as pure functions from a HookState and the
incoming event to a new HookState together with the list of messages
sent, each tagged with its destination peer id.
-/

namespace GameConn

/-- Modelled from the spec: the Player record is imported from the missing
module lib/game; its fields are those the spec names in the data model and
those useGameConnection.ts constructs (id, peerId, name, hand, isBidder,
isPartner, collectedCards, tricksWon). The card type is opaque to the
core, so cards are represented by numbers. -/
structure Player where
  id : Nat
  peerId : String
  name : String
  hand : List Nat
  isBidder : Bool
  isPartner : Bool
  collectedCards : List Nat
  tricksWon : Nat
deriving DecidableEq, Repr

/-- Modelled from the spec: the GameState record is imported from the missing
module lib/game; the fields are those the spec names (room code stored in
id, hostPeerId, players, playerCount, turnHistory) plus one opaque field
standing for all game-specific data, which the core never touches. -/
structure GameState where
  id : String
  hostPeerId : String
  players : List Player
  playerCount : Nat
  turnHistory : List String
  gameData : Nat
deriving DecidableEq, Repr

/-- PlayerRole from useGameConnection.ts. -/
inductive Role
  | host
  | peer
  | none
deriving DecidableEq, Repr

/-- The Message tagged union from useGameConnection.ts. -/
inductive Message
  | game_state_update (payload : GameState)
  | player_join_request (peerId : String) (playerName : String)
  | game_full
  | welcome (payload : GameState)
deriving DecidableEq, Repr

/-- One entry of connectionsRef: a DataConnection keyed by peer id, with
its open flag. -/
structure Conn where
  peerId : String
  isOpen : Bool
deriving DecidableEq, Repr

/-- The protocol-relevant local state of the hook. -/
structure HookState where
  myPeerId : String
  role : Role
  gameState : Option GameState
  connections : List Conn
deriving DecidableEq, Repr

/-- connectionsRef.current[target]?.send(m): the optional chain sends the
message exactly when an entry for target exists in the registry. -/
def sendTo (conns : List Conn) (target : String) (m : Message) :
    List (String × Message) :=
  match conns.find? (fun c => c.peerId == target) with
  | some _ => [(target, m)]
  | Option.none => []

/-- broadcastGameState: for a non-host it returns immediately; for the host
it sends game_state_update(newState) on every open connection and then
adopts newState as its own gameState. -/
def broadcastGameState (s : HookState) (newState : GameState) :
    HookState × List (String × Message) :=
  if s.role = Role.host then
    ({ s with gameState := some newState },
      (s.connections.filter (fun c => c.isOpen)).map
        (fun c => (c.peerId, Message.game_state_update newState)))
  else (s, [])

/-- The Player literal built in the player_join_request branch: ordinal id
players.length, the requester's peer id and name, and empty game-specific
fields. -/
def joinedPlayer (gs : GameState) (pid pname : String) : Player :=
  { id := gs.players.length
    peerId := pid
    name := pname
    hand := []
    isBidder := false
    isPartner := false
    collectedCards := []
    tricksWon := 0 }

/-- The newGameState built in the player_join_request branch: the new
player appended to players and a join notice appended to turnHistory. -/
def joinedState (gs : GameState) (pid pname : String) : GameState :=
  { gs with
      players := gs.players ++ [joinedPlayer gs pid pname]
      turnHistory := gs.turnHistory ++ [pname ++ " has joined."] }

/-- handleIncomingMessage from useGameConnection.ts, with fromPeerId the
sender identity supplied by the transport. -/
def handleIncomingMessage (s : HookState) (m : Message) (fromPeerId : String) :
    HookState × List (String × Message) :=
  match m with
  | .game_state_update payload =>
      if s.role = Role.peer then ({ s with gameState := some payload }, [])
      else (s, [])
  | .player_join_request pid pname =>
      if s.role = Role.host then
        match s.gameState with
        | some currentGameState =>
            if currentGameState.players.length ≥ currentGameState.playerCount then
              (s, sendTo s.connections fromPeerId Message.game_full)
            else
              let newGameState := joinedState currentGameState pid pname
              let welcomeSends :=
                sendTo s.connections fromPeerId (Message.welcome newGameState)
              let r := broadcastGameState s newGameState
              (r.fst, welcomeSends ++ r.snd)
        | Option.none => (s, [])
      else (s, [])
  | .welcome payload => ({ s with gameState := some payload }, [])
  | .game_full => ({ s with role := Role.none }, [])

/-- The state built in the close handler when the filter removed at least
one player: matching players dropped and a disconnect notice appended. -/
def removedState (gs : GameState) (closedPeer : String) : GameState :=
  { gs with
      players := gs.players.filter (fun p => p.peerId != closedPeer)
      turnHistory := gs.turnHistory ++ ["A player has disconnected."] }

/-- The conn.on close handler. When the event fires the closing channel is
no longer open, so it is first marked closed; then, on the host, players
matching the closed peer are filtered out and, if that removed anyone, the
resulting state is broadcast; finally the registry entry is deleted. -/
def handleChannelClosed (s : HookState) (closedPeer : String) :
    HookState × List (String × Message) :=
  let s1 : HookState :=
    { s with
        connections := s.connections.map
          (fun c => if c.peerId == closedPeer then { c with isOpen := false } else c) }
  let afterLogic : HookState × List (String × Message) :=
    if s1.role = Role.host then
      match s1.gameState with
      | some gs =>
          let newPlayers := gs.players.filter (fun p => p.peerId != closedPeer)
          if newPlayers.length < gs.players.length then
            broadcastGameState s1 (removedState gs closedPeer)
          else (s1, [])
      | Option.none => (s1, [])
    else (s1, [])
  ({ afterLogic.fst with
      connections := afterLogic.fst.connections.filter
        (fun c => c.peerId != closedPeer) },
    afterLogic.snd)

/-- The two host-side events that mutate the player list. -/
inductive HostEvent
  | join (fromPeerId pid pname : String)
  | close (peerId : String)
deriving DecidableEq, Repr

/-- One host-side step: dispatch a join request or a channel close. -/
def hostStep (s : HookState) (e : HostEvent) : HookState :=
  match e with
  | .join f pid pname =>
      (handleIncomingMessage s (.player_join_request pid pname) f).fst
  | .close p => (handleChannelClosed s p).fst

/-- Run a sequence of host-side events. -/
def runEvents (s : HookState) (es : List HostEvent) : HookState :=
  es.foldl hostStep s

/-- Ordinal-id invariant: the ids in players are exactly 0,1,...,n-1 in
order, hence unique and equal to their index. -/
def idsOk (s : HookState) : Prop :=
  ∀ gs, s.gameState = some gs →
    gs.players.map Player.id = List.range gs.players.length

/-- Capacity invariant: the player list never exceeds playerCount. -/
def capOk (s : HookState) : Prop :=
  ∀ gs, s.gameState = some gs → gs.players.length ≤ gs.playerCount

/-! Concrete fixtures used to instantiate the theorems. -/

/-- An empty two-seat room. -/
def gsA : GameState :=
  { id := "R1", hostPeerId := "H", players := [], playerCount := 2,
    turnHistory := [], gameData := 0 }

/-- A host for gsA with one open connection from peer p1. -/
def sA : HookState :=
  { myPeerId := "H", role := Role.host, gameState := some gsA,
    connections := [⟨"p1", true⟩] }

/-- An empty four-seat room. -/
def gsB : GameState :=
  { id := "R2", hostPeerId := "H", players := [], playerCount := 4,
    turnHistory := [], gameData := 0 }

/-- A distinct state used as an update payload. -/
def gsB2 : GameState := { gsB with turnHistory := ["x"] }

/-- A peer whose designated host channel is H. -/
def sB : HookState :=
  { myPeerId := "P", role := Role.peer, gameState := some gsB,
    connections := [⟨"H", true⟩] }

/-- A host for gsB with open connections from peers A, B and C. -/
def sC : HookState :=
  { myPeerId := "H", role := Role.host, gameState := some gsB,
    connections := [⟨"A", true⟩, ⟨"B", true⟩, ⟨"C", true⟩] }

/-- Two accepted joins, a disconnect of the first, then a third join. -/
def evC : List HostEvent :=
  [.join "A" "A" "Alice", .join "B" "B" "Bob", .close "A",
   .join "C" "C" "Cara"]

/-- A full one-seat room. -/
def gsF : GameState :=
  { id := "R3", hostPeerId := "H",
    players := [joinedPlayer gsB "A" "Alice"], playerCount := 1,
    turnHistory := ["Alice has joined."], gameData := 0 }

/-- A host for gsF with an open connection from peer p1. -/
def sF : HookState :=
  { myPeerId := "H", role := Role.host, gameState := some gsF,
    connections := [⟨"p1", true⟩] }

/-- A host with two seated players A and B, both channels open. -/
def gsE : GameState :=
  { id := "R4", hostPeerId := "H",
    players := [joinedPlayer gsB "A" "Alice", joinedPlayer (joinedState gsB "A" "Alice") "B" "Bob"],
    playerCount := 4,
    turnHistory := ["Alice has joined.", "Bob has joined."], gameData := 0 }

/-- Host state for gsE. -/
def sE : HookState :=
  { myPeerId := "H", role := Role.host, gameState := some gsE,
    connections := [⟨"A", true⟩, ⟨"B", true⟩] }

/-! Theorems. -/

/-- C1: when the host processes a join request while players.length is
below playerCount, the new player gets ordinal id players.length and empty
game-specific fields, is appended to players, a join notice is appended to
turnHistory, a Welcome carrying the state that already contains the new
player is sent to the requester, and the host adopts that state as its own
gameState. -/
theorem join_request_accepted (s : HookState) (f pid pname : String)
    (gs : GameState)
    (h1 : s.role = Role.host) (h2 : s.gameState = some gs)
    (h3 : gs.players.length < gs.playerCount)
    (h4 : (s.connections.find? (fun c => c.peerId == f)).isSome = true) :
    (joinedPlayer gs pid pname).id = gs.players.length ∧
    (joinedPlayer gs pid pname).hand = [] ∧
    (joinedPlayer gs pid pname).isBidder = false ∧
    (joinedPlayer gs pid pname).isPartner = false ∧
    (joinedPlayer gs pid pname).collectedCards = [] ∧
    (joinedPlayer gs pid pname).tricksWon = 0 ∧
    (joinedState gs pid pname).players = gs.players ++ [joinedPlayer gs pid pname] ∧
    (joinedState gs pid pname).turnHistory
      = gs.turnHistory ++ [pname ++ " has joined."] ∧
    joinedPlayer gs pid pname ∈ (joinedState gs pid pname).players ∧
    (f, Message.welcome (joinedState gs pid pname))
      ∈ (handleIncomingMessage s (.player_join_request pid pname) f).snd ∧
    (handleIncomingMessage s (.player_join_request pid pname) f).fst.gameState
      = some (joinedState gs pid pname) := by
  obtain ⟨c, hc⟩ := Option.isSome_iff_exists.mp h4
  refine ⟨rfl, rfl, rfl, rfl, rfl, rfl, rfl, rfl, by simp [joinedState], ?_, ?_⟩
  · simp [handleIncomingMessage, h1, h2, Nat.not_le.mpr h3, sendTo, hc]
  · simp [handleIncomingMessage, h1, h2, Nat.not_le.mpr h3, broadcastGameState]

/-- Witness for join_request_accepted at the concrete host sA. -/
theorem join_request_accepted_witness :
    (handleIncomingMessage sA (.player_join_request "p1" "Ann") "p1").fst.gameState
      = some (joinedState gsA "p1" "Ann") :=
  (join_request_accepted sA "p1" "p1" "Ann" gsA rfl rfl (by decide)
    (by decide)).2.2.2.2.2.2.2.2.2.2

/-- C2: a join request arriving when players.length is at least playerCount
leaves the entire hook state unchanged and sends exactly one GameFull,
addressed to the requester. -/
theorem join_request_rejected (s : HookState) (f pid pname : String)
    (gs : GameState)
    (h1 : s.role = Role.host) (h2 : s.gameState = some gs)
    (h3 : gs.players.length ≥ gs.playerCount)
    (h4 : (s.connections.find? (fun c => c.peerId == f)).isSome = true) :
    handleIncomingMessage s (.player_join_request pid pname) f
      = (s, [(f, Message.game_full)]) := by
  obtain ⟨c, hc⟩ := Option.isSome_iff_exists.mp h4
  simp [handleIncomingMessage, h1, h2, h3, sendTo, hc]

/-- Witness for join_request_rejected at the full room sF. -/
theorem join_request_rejected_witness :
    handleIncomingMessage sF (.player_join_request "p1" "Dan") "p1"
      = (sF, [("p1", Message.game_full)]) :=
  join_request_rejected sF "p1" "p1" "Dan" gsF rfl rfl (by decide) (by decide)

/-- C10: broadcastGameState called while the role is not host sends nothing
and changes nothing: it returns the state untouched with an empty send
list. -/
theorem broadcast_noop_for_nonhost (s : HookState) (ns : GameState)
    (h : s.role ≠ Role.host) :
    broadcastGameState s ns = (s, []) := by
  simp [broadcastGameState, h]

/-- Witness for broadcast_noop_for_nonhost at the peer sB. -/
theorem broadcast_noop_for_nonhost_witness :
    broadcastGameState sB gsB2 = (sB, []) :=
  broadcast_noop_for_nonhost sB gsB2 (by decide)

/-- C3: the code comment says the broadcast after an accepted join notifies
all other players, but broadcastGameState iterates every open connection,
including the requester's, so the newly welcomed joiner p1 receives both
the Welcome and the GameStateUpdate for its own join. -/
theorem welcome_recipient_also_gets_update :
    ("p1", Message.welcome (joinedState gsA "p1" "Ann"))
      ∈ (handleIncomingMessage sA (.player_join_request "p1" "Ann") "p1").snd ∧
    ("p1", Message.game_state_update (joinedState gsA "p1" "Ann"))
      ∈ (handleIncomingMessage sA (.player_join_request "p1" "Ann") "p1").snd := by
  decide

/-- C4 counterexample: the peer sB has designated host H, yet a
game_state_update arriving from the unrelated sender X replaces its cached
state, so a state-bearing envelope from a non-host sender does not leave
the cached state unchanged. -/
theorem peer_accepts_update_from_nonhost :
    "X" ≠ gsB.hostPeerId ∧
    sB.gameState = some gsB ∧
    (handleIncomingMessage sB (.game_state_update gsB2) "X").fst.gameState
      = some gsB2 ∧
    some gsB2 ≠ sB.gameState := by
  decide

/-- C4 amended: no sender-identity check is performed: a process in peer
role replaces its cached state on a game_state_update from any sender, and
any process in any role replaces its cached state on a welcome from any
sender. -/
theorem state_replacement_ignores_sender (s : HookState) (S : GameState)
    (f : String) (h : s.role = Role.peer) :
    (handleIncomingMessage s (.game_state_update S) f).fst.gameState = some S ∧
    ∀ (s2 : HookState) (g : String),
      (handleIncomingMessage s2 (.welcome S) g).fst.gameState = some S := by
  refine ⟨?_, fun s2 g => rfl⟩
  simp [handleIncomingMessage, h]

/-- Witness for state_replacement_ignores_sender at the peer sB with
sender X. -/
theorem state_replacement_ignores_sender_witness :
    (handleIncomingMessage sB (.game_state_update gsB2) "X").fst.gameState
      = some gsB2 :=
  (state_replacement_ignores_sender sB gsB2 "X" rfl).1

/-- C5: a peer processing game_state_update(S) caches exactly S, and
processing the same update a second time yields the same full hook state
and sends as the first. -/
theorem peer_update_wholesale_idempotent (s : HookState) (S : GameState)
    (f g : String) (h : s.role = Role.peer) :
    (handleIncomingMessage s (.game_state_update S) f).fst.gameState = some S ∧
    handleIncomingMessage
        (handleIncomingMessage s (.game_state_update S) f).fst
        (.game_state_update S) g
      = handleIncomingMessage s (.game_state_update S) f := by
  constructor
  · simp [handleIncomingMessage, h]
  · simp [handleIncomingMessage, h]

/-- Witness for peer_update_wholesale_idempotent at the peer sB. -/
theorem peer_update_wholesale_idempotent_witness :
    (handleIncomingMessage sB (.game_state_update gsB2) "H").fst.gameState
      = some gsB2 ∧
    handleIncomingMessage
        (handleIncomingMessage sB (.game_state_update gsB2) "H").fst
        (.game_state_update gsB2) "H"
      = handleIncomingMessage sB (.game_state_update gsB2) "H" :=
  peer_update_wholesale_idempotent sB gsB2 "H" "H" rfl

/-- C9 counterexample: a peer that receives game_full has its role set to
none by handleIncomingMessage, so an inbound envelope does change the
role. -/
theorem role_changed_by_game_full :
    sB.role = Role.peer ∧
    (handleIncomingMessage sB Message.game_full "H").fst.role = Role.none ∧
    Role.none ≠ Role.peer := by
  decide

/-- C9 amended: processing game_state_update, player_join_request or
welcome never changes the role; processing game_full always sets the role
to none (the join-rejection path); other role changes happen only in
hostGame, joinGame and the channel error handlers. -/
theorem role_change_characterization (s : HookState) (m : Message)
    (f : String) :
    (handleIncomingMessage s m f).fst.role
      = (match m with
         | Message.game_full => Role.none
         | _ => s.role) := by
  cases m with
  | game_state_update payload =>
      by_cases h : s.role = Role.peer <;> simp [handleIncomingMessage, h]
  | player_join_request pid pname =>
      by_cases h : s.role = Role.host
      · cases hgs : s.gameState with
        | none => simp [handleIncomingMessage, h, hgs]
        | some gs =>
            by_cases hcap : gs.players.length ≥ gs.playerCount
            · simp [handleIncomingMessage, h, hgs, hcap]
            · simp [handleIncomingMessage, h, hgs, hcap, broadcastGameState]
      · simp [handleIncomingMessage, h]
  | welcome payload => rfl
  | game_full => rfl

/-- Removing the players matching q shortens the list exactly when some
player matches q. -/
lemma filter_length_lt_iff_any (l : List Player) (q : String) :
    (l.filter (fun p => p.peerId != q)).length < l.length ↔
      l.any (fun p => p.peerId == q) = true := by
  induction l with
  | nil => simp
  | cons p l ih =>
      cases hpq : (p.peerId == q) with
      | true =>
          have hb : (p.peerId != q) = false := by simp [bne, hpq]
          rw [List.filter_cons, List.any_cons, hpq]
          rw [if_neg (by simp [hb])]
          exact iff_of_true (Nat.lt_succ_of_le (List.length_filter_le _ _))
            (by simp)
      | false =>
          have hb : (p.peerId != q) = true := by simp [bne, hpq]
          rw [List.filter_cons, List.any_cons, hpq]
          rw [if_pos (by simp [hb])]
          simpa only [List.length_cons, Nat.succ_lt_succ_iff, Bool.false_or]
            using ih

/-- Marking the closed channel as not open and then keeping only open
channels is the same as keeping the originally open channels other than
the closed one. -/
lemma marked_open_filter (conns : List Conn) (q : String) :
    ((conns.map
        (fun c => if c.peerId = q then { c with isOpen := false } else c)).filter
      (fun c => c.isOpen))
      = conns.filter (fun c => c.isOpen && c.peerId != q) := by
  induction conns with
  | nil => rfl
  | cons c cs ih =>
      by_cases hpq : c.peerId = q
      · have hb : (c.peerId != q) = false := by simp [bne, hpq]
        rw [List.map_cons, if_pos hpq, List.filter_cons, List.filter_cons,
          if_neg Bool.false_ne_true, if_neg (by simp [hb])]
        exact ih
      · have hb : (c.peerId != q) = true := by simp [bne, hpq]
        rw [List.map_cons, if_neg hpq]
        cases ho : c.isOpen with
        | false =>
            rw [List.filter_cons, List.filter_cons, if_neg (by simp [ho]),
              if_neg (by simp [ho])]
            exact ih
        | true =>
            rw [List.filter_cons, List.filter_cons, if_pos (by simp [ho]),
              if_pos (by simp [ho, hb]), ih]

/-- C7: one host-side step, a join request or a channel close, preserves
players.length less than or equal to playerCount. -/
theorem players_le_capacity (s : HookState) (e : HostEvent) (h : capOk s) :
    capOk (hostStep s e) := by
  cases e with
  | join f pid pname =>
      intro gs hgs
      by_cases hr : s.role = Role.host
      · cases hgs0 : s.gameState with
        | none => simp [hostStep, handleIncomingMessage, hr, hgs0] at hgs
        | some gs0 =>
            by_cases hcap : gs0.players.length ≥ gs0.playerCount
            · simp [hostStep, handleIncomingMessage, hr, hgs0, hcap] at hgs
              exact hgs ▸ h gs0 hgs0
            · simp [hostStep, handleIncomingMessage, hr, hgs0, hcap,
                broadcastGameState] at hgs
              subst hgs
              simp [joinedState, joinedPlayer]
              omega
      · simp [hostStep, handleIncomingMessage, hr] at hgs
        exact h gs hgs
  | close p =>
      intro gs hgs
      by_cases hr : s.role = Role.host
      · cases hgs0 : s.gameState with
        | none => simp [hostStep, handleChannelClosed, hr, hgs0] at hgs
        | some gs0 =>
            by_cases hlt : (gs0.players.filter (fun q => q.peerId != p)).length
                < gs0.players.length
            · simp [hostStep, handleChannelClosed, hr, hgs0, hlt,
                broadcastGameState] at hgs
              subst hgs
              simp [removedState]
              exact le_trans (List.length_filter_le _ _) (h gs0 hgs0)
            · simp [hostStep, handleChannelClosed, hr, hgs0, hlt] at hgs
              exact hgs ▸ h gs0 hgs0
      · simp [hostStep, handleChannelClosed, hr] at hgs
        exact h gs hgs

/-- Witness for players_le_capacity: one accepted join at the host sC. -/
theorem players_le_capacity_witness :
    capOk (hostStep sC (HostEvent.join "A" "A" "Alice")) :=
  players_le_capacity sC (HostEvent.join "A" "A" "Alice")
    (by
      intro gs hgs
      rw [show sC.gameState = some gsB from rfl] at hgs
      injection hgs with hh
      subst hh
      decide)

/-- C8: on a channel close at the host, if some player matches the closed
peer then every matching player is removed, a disconnect notice is
appended to turnHistory, and the resulting state is broadcast to every
remaining open channel; if no player matches, gameState, role and
turnHistory are untouched and nothing is sent. -/
theorem channel_closed_spec (s : HookState) (closedPeer : String)
    (gs : GameState)
    (h1 : s.role = Role.host) (h2 : s.gameState = some gs) :
    (removedState gs closedPeer).turnHistory
      = gs.turnHistory ++ ["A player has disconnected."] ∧
    (∀ p ∈ (removedState gs closedPeer).players, ¬ p.peerId = closedPeer) ∧
    (gs.players.any (fun p => p.peerId == closedPeer) = true →
      (handleChannelClosed s closedPeer).fst.gameState
        = some (removedState gs closedPeer) ∧
      (handleChannelClosed s closedPeer).snd
        = (s.connections.filter (fun c => c.isOpen && c.peerId != closedPeer)).map
            (fun c => (c.peerId,
              Message.game_state_update (removedState gs closedPeer)))) ∧
    (gs.players.any (fun p => p.peerId == closedPeer) = false →
      (handleChannelClosed s closedPeer).fst.gameState = s.gameState ∧
      (handleChannelClosed s closedPeer).fst.role = s.role ∧
      (handleChannelClosed s closedPeer).snd = []) := by
  refine ⟨rfl, ?_, ?_, ?_⟩
  · intro p hp
    have := List.of_mem_filter hp
    simpa [bne] using this
  · intro hany
    have hlt := (filter_length_lt_iff_any gs.players closedPeer).mpr hany
    constructor
    · simp [handleChannelClosed, h1, h2, hlt, broadcastGameState]
    · simp [handleChannelClosed, h1, h2, hlt, broadcastGameState,
        marked_open_filter]
  · intro hany
    have hnlt : ¬ (gs.players.filter (fun p => p.peerId != closedPeer)).length
        < gs.players.length := fun hl =>
      absurd ((filter_length_lt_iff_any gs.players closedPeer).mp hl)
        (by simp [hany])
    refine ⟨?_, ?_, ?_⟩ <;> simp [handleChannelClosed, h1, h2, hnlt]

/-- Witness for channel_closed_spec: closing seated player B at the host
sE removes B and installs the disconnect state. -/
theorem channel_closed_spec_witness :
    (handleChannelClosed sE "B").fst.gameState
      = some (removedState gsE "B") :=
  ((channel_closed_spec sE "B" gsE rfl rfl).2.2.1 (by decide)).1

/-- C6 counterexample: after the event sequence evC (Alice joins with id
0, Bob joins with id 1, Alice disconnects, Cara joins), Cara is assigned
ordinal id players.length = 1, which Bob already holds, so the ids in the
reachable host state are [1, 1] and not unique. -/
theorem ordinal_ids_collide :
    (runEvents sC evC).gameState.map (fun gs => gs.players.map Player.id)
      = some [1, 1] ∧
    ¬ ([1, 1] : List Nat).Nodup := by
  decide

/-- C6 amended: for host states reached by join events only (no
channel-close removals), the ordinal ids are exactly 0,...,n-1 in list
order, so each id equals its index (which is its index at assignment
time) and the ids are unique. -/
theorem join_only_ids_unique (s : HookState) (es : List HostEvent)
    (hEv : ∀ e ∈ es, ∃ f pid pname, e = HostEvent.join f pid pname)
    (h : idsOk s) :
    idsOk (runEvents s es) ∧
    ∀ gs, (runEvents s es).gameState = some gs →
      (gs.players.map Player.id).Nodup := by
  have main : ∀ (es2 : List HostEvent) (s2 : HookState),
      (∀ e ∈ es2, ∃ f pid pname, e = HostEvent.join f pid pname) →
      idsOk s2 → idsOk (runEvents s2 es2) := by
    intro es2
    induction es2 with
    | nil => intro s2 _ h0; exact h0
    | cons e tl ih =>
        intro s2 hEv2 h0
        obtain ⟨f, pid, pname, he⟩ := hEv2 e (List.mem_cons_self e tl)
        subst he
        refine ih (hostStep s2 (HostEvent.join f pid pname))
          (fun x hx => hEv2 x (List.mem_cons_of_mem _ hx)) ?_
        intro gs hgs
        by_cases hr : s2.role = Role.host
        · cases hgs0 : s2.gameState with
          | none => simp [hostStep, handleIncomingMessage, hr, hgs0] at hgs
          | some gs0 =>
              by_cases hcap : gs0.players.length ≥ gs0.playerCount
              · simp [hostStep, handleIncomingMessage, hr, hgs0, hcap] at hgs
                exact hgs ▸ h0 gs0 hgs0
              · have hids := h0 gs0 hgs0
                simp [hostStep, handleIncomingMessage, hr, hgs0, hcap,
                  broadcastGameState] at hgs
                subst hgs
                simp [joinedState, joinedPlayer, hids, List.range_succ]
        · simp [hostStep, handleIncomingMessage, hr] at hgs
          exact h0 gs hgs
  refine ⟨main es s hEv h, fun gs hgs => ?_⟩
  rw [main es s hEv h gs hgs]
  exact List.nodup_range gs.players.length

/-- Witness for join_only_ids_unique: two joins at the host sC keep the
id invariant. -/
theorem join_only_ids_unique_witness :
    idsOk (runEvents sC
      [HostEvent.join "A" "A" "Alice", HostEvent.join "B" "B" "Bob"]) :=
  (join_only_ids_unique sC
    [HostEvent.join "A" "A" "Alice", HostEvent.join "B" "B" "Bob"]
    (by
      intro e he
      rcases List.mem_cons.mp he with h | h
      · exact ⟨"A", "A", "Alice", h⟩
      · rcases List.mem_cons.mp h with h2 | h2
        · exact ⟨"B", "B", "Bob", h2⟩
        · exact absurd h2 (List.not_mem_nil e))
    (by
      intro gs hgs
      rw [show sC.gameState = some gsB from rfl] at hgs
      injection hgs with hh
      subst hh
      rfl)).1

end GameConn
